import Mathlib

/-!
Cluster snapshot: bulk initialisation and the fork/revert contract

A shallow embedding of `clustersnapshot/clustersnapshot.go`.

* The Go interface `ClusterSnapshot` becomes a record of state-passing
  methods over an abstract state type `σ`; a method of signature
  `M(args) error` becomes `σ → args → σ × GoError`.
* `InitializeClusterSnapshotOrDie` becomes a function returning an `Outcome`:
  either it returned, or it panicked with a value.
* `recording` wraps any implementation so that every call made through the
  interface is appended, with the error it returned, to a log.  The theorems
  about "which calls are issued" are statements about that log.
* The source file holds no implementation of the interface.  The engine of
  the specification (stores, usage index, layer stack) is modelled from the
  specification, and the fork/revert round trip is proved on that model.
-/

namespace clustersnapshot

/-! ## Go values -/

/-- Go's `*errors.errorString`, the value allocated by `errors.New`.  `addr`
stands for the pointer, so two values are identical exactly when they are the
same allocation. -/
structure errorString where
  addr : Nat
  s : String
deriving DecidableEq, Repr

/-- Go's `error` interface value; `none` is the nil (unset) error. -/
abbrev GoError := Option errorString

/-- The allocations made by `errors.New` so far, oldest first, each with its
text.  The pointer of an allocation is its position in this list. -/
abbrev Heap := List String

/-- Go's `errors.New(text)`: it allocates a new `errorString` and returns the
pointer to it, so every call returns a distinct value, also for equal texts. -/
def errors_New (h : Heap) (text : String) : Heap × GoError :=
  (h ++ [text], some ⟨h.length, text⟩)

/-- The allocations of `errors.New` when the package's variables are
initialised; pointers are counted from here. -/
def heapAtInit : Heap := []

/-- The package's variable initialisation: the one initialiser of line 41,
`errors.New("node not found")`. -/
def packageInit : Heap × GoError := errors_New heapAtInit "node not found"

/-- Line 41: `var ErrNodeNotFound = errors.New("node not found")`. -/
def ErrNodeNotFound : GoError := packageInit.2

/-- The `spec` part of `apiv1.Pod` that the package reads. -/
structure PodSpec where
  NodeName : String
  VolumeClaimRefs : List String
deriving DecidableEq, Repr

/-- The `status` part of `apiv1.Pod` that the package reads. -/
structure PodStatus where
  NominatedNodeName : String
deriving DecidableEq, Repr

/-- The fields of `apiv1.Pod` named by the external schema. -/
structure Pod where
  Namespace : String
  Name : String
  Request : Nat
  Spec : PodSpec
  Status : PodStatus
deriving DecidableEq, Repr

/-- The fields of `apiv1.Node` named by the external schema. -/
structure Node where
  Name : String
  Capacity : Nat
  Allocatable : Nat
deriving DecidableEq, Repr

/-- The scheduler framework's view of a node: the node, the pods bound to it
and the sum of their requests. -/
structure NodeInfo where
  node : Node
  pods : List Pod
  requested : Nat
deriving DecidableEq, Repr

/-! ## The interface -/

/-- Lines 12-38: the `ClusterSnapshot` interface.  Each method takes the
receiver's state and returns the new state with its result.  The embedded
`schedulerframework.SharedLister` is represented by its node listing. -/
structure ClusterSnapshot (σ : Type) where
  NodeInfos : σ → σ × List NodeInfo
  AddNode : σ → Node → σ × GoError
  AddNodes : σ → List Node → σ × GoError
  RemoveNode : σ → String → σ × GoError
  AddPod : σ → Pod → String → σ × GoError
  RemovePod : σ → String → String → String → σ × GoError
  AddNodeWithPods : σ → Node → List Pod → σ × GoError
  IsPVCUsedByPods : σ → String → σ × Bool
  Fork : σ → σ
  Revert : σ → σ
  Commit : σ → σ × GoError
  Clear : σ → σ

/-- One call through the interface, with its arguments. -/
inductive Call where
  | NodeInfos
  | AddNode (node : Node)
  | AddNodes (nodes : List Node)
  | RemoveNode (nodeName : String)
  | AddPod (pod : Pod) (nodeName : String)
  | RemovePod (ns : String) (podName : String) (nodeName : String)
  | AddNodeWithPods (node : Node) (pods : List Pod)
  | IsPVCUsedByPods (key : String)
  | Fork
  | Revert
  | Commit
  | Clear
deriving DecidableEq, Repr

/-- A logged call together with the error it returned (nil for the methods
that return no error). -/
structure Event where
  call : Call
  ret : GoError
deriving DecidableEq, Repr

/-- The effect of one call on the state of an implementation. -/
def Call.run {σ : Type} (impl : ClusterSnapshot σ) (s : σ) : Call → σ
  | .NodeInfos => (impl.NodeInfos s).1
  | .AddNode node => (impl.AddNode s node).1
  | .AddNodes nodes => (impl.AddNodes s nodes).1
  | .RemoveNode nodeName => (impl.RemoveNode s nodeName).1
  | .AddPod pod nodeName => (impl.AddPod s pod nodeName).1
  | .RemovePod ns podName nodeName => (impl.RemovePod s ns podName nodeName).1
  | .AddNodeWithPods node pods => (impl.AddNodeWithPods s node pods).1
  | .IsPVCUsedByPods key => (impl.IsPVCUsedByPods s key).1
  | .Fork => impl.Fork s
  | .Revert => impl.Revert s
  | .Commit => (impl.Commit s).1
  | .Clear => impl.Clear s

/-- The state reached by making the given calls one after the other. -/
def replay {σ : Type} (impl : ClusterSnapshot σ) (s : σ) (calls : List Call) : σ :=
  calls.foldl (Call.run impl) s

/-- Wrap an implementation so that every call is logged, in order, with the
error it returned.  The wrapped implementation behaves as the original on the
first component of the state. -/
def recording {σ : Type} (impl : ClusterSnapshot σ) : ClusterSnapshot (σ × List Event) where
  NodeInfos := fun st =>
    let r := impl.NodeInfos st.1
    ((r.1, st.2 ++ [⟨Call.NodeInfos, none⟩]), r.2)
  AddNode := fun st node =>
    let r := impl.AddNode st.1 node
    ((r.1, st.2 ++ [⟨Call.AddNode node, r.2⟩]), r.2)
  AddNodes := fun st nodes =>
    let r := impl.AddNodes st.1 nodes
    ((r.1, st.2 ++ [⟨Call.AddNodes nodes, r.2⟩]), r.2)
  RemoveNode := fun st nodeName =>
    let r := impl.RemoveNode st.1 nodeName
    ((r.1, st.2 ++ [⟨Call.RemoveNode nodeName, r.2⟩]), r.2)
  AddPod := fun st pod nodeName =>
    let r := impl.AddPod st.1 pod nodeName
    ((r.1, st.2 ++ [⟨Call.AddPod pod nodeName, r.2⟩]), r.2)
  RemovePod := fun st ns podName nodeName =>
    let r := impl.RemovePod st.1 ns podName nodeName
    ((r.1, st.2 ++ [⟨Call.RemovePod ns podName nodeName, r.2⟩]), r.2)
  AddNodeWithPods := fun st node pods =>
    let r := impl.AddNodeWithPods st.1 node pods
    ((r.1, st.2 ++ [⟨Call.AddNodeWithPods node pods, r.2⟩]), r.2)
  IsPVCUsedByPods := fun st key =>
    let r := impl.IsPVCUsedByPods st.1 key
    ((r.1, st.2 ++ [⟨Call.IsPVCUsedByPods key, none⟩]), r.2)
  Fork := fun st => (impl.Fork st.1, st.2 ++ [⟨Call.Fork, none⟩])
  Revert := fun st => (impl.Revert st.1, st.2 ++ [⟨Call.Revert, none⟩])
  Commit := fun st =>
    let r := impl.Commit st.1
    ((r.1, st.2 ++ [⟨Call.Commit, r.2⟩]), r.2)
  Clear := fun st => (impl.Clear st.1, st.2 ++ [⟨Call.Clear, none⟩])

/-! ## `InitializeClusterSnapshotOrDie` -/

/-- How a call of a function without results ends: it returns, or it panics
with a value.  Both carry the snapshot state at that moment. -/
inductive Outcome (σ : Type) where
  | returned (s : σ)
  | panicked (s : σ) (v : GoError)

/-- The snapshot state when the call ended. -/
def Outcome.state {σ : Type} : Outcome σ → σ
  | .returned s => s
  | .panicked s _ => s

/-- Whether the call ended in a panic. -/
def Outcome.isPanic {σ : Type} : Outcome σ → Bool
  | .returned _ => false
  | .panicked _ _ => true

/-- The value handed to `panic`, if the call panicked. -/
def Outcome.panicValue {σ : Type} : Outcome σ → Option GoError
  | .returned _ => none
  | .panicked _ v => some v

/-- View an outcome through a map on states. -/
def Outcome.map {σ τ : Type} (f : σ → τ) : Outcome σ → Outcome τ
  | .returned s => .returned (f s)
  | .panicked s v => .panicked (f s) v

/-- Lines 51-54: `for i := 0; i < len(nodes); i++ { node := nodes[i]; err =
snapshot.AddNode(&node) }`, as a recursion over the elements in index order.
The local variable `err` is threaded through and overwritten by each call. -/
def addNodesLoop {σ : Type} (snapshot : ClusterSnapshot σ) :
    List Node → σ → GoError → σ × GoError
  | [], s, err => (s, err)
  | node :: rest, s, _ =>
    let r := snapshot.AddNode s node
    addNodesLoop snapshot rest r.1 r.2

/-- Lines 56-65: the loop over `pods`, as a recursion over the elements in
index order.  The `else` branch is `panic(err)`. -/
def addPodsLoop {σ : Type} (snapshot : ClusterSnapshot σ) :
    List Pod → σ → GoError → Outcome σ
  | [], s, _ => .returned s
  | pod :: rest, s, err =>
    if pod.Spec.NodeName ≠ "" then
      let r := snapshot.AddPod s pod pod.Spec.NodeName
      addPodsLoop snapshot rest r.1 r.2
    else if pod.Status.NominatedNodeName ≠ "" then
      let r := snapshot.AddPod s pod pod.Status.NominatedNodeName
      addPodsLoop snapshot rest r.1 r.2
    else
      .panicked s err

/-- Lines 43-66: `InitializeClusterSnapshotOrDie(snapshot, nodes, pods)`. -/
def InitializeClusterSnapshotOrDie {σ : Type} (snapshot : ClusterSnapshot σ) (s : σ)
    (nodes : List Node) (pods : List Pod) : Outcome σ :=
  let err : GoError := none
  let s1 := snapshot.Clear s
  let r := addNodesLoop snapshot nodes s1 err
  addPodsLoop snapshot pods r.1 r.2

/-! ## Vocabulary of the statements -/

/-- The pod names a node: its binding or its nomination is non-empty. -/
def Placed (pod : Pod) : Prop :=
  pod.Spec.NodeName ≠ "" ∨ pod.Status.NominatedNodeName ≠ ""

instance (pod : Pod) : Decidable (Placed pod) := by
  unfold Placed; infer_instance

/-- The node name the loop hands to `AddPod` for a pod that names a node. -/
def targetNode (pod : Pod) : String :=
  if pod.Spec.NodeName ≠ "" then pod.Spec.NodeName else pod.Status.NominatedNodeName

/-- The calls, in order, of a log. -/
def callsOf (log : List Event) : List Call := log.map Event.call

/-- The call is one of the two add calls the initialisation makes. -/
def Call.isAdd : Call → Bool
  | .AddNode _ => true
  | .AddPod _ _ => true
  | _ => false

/-- The call is an `AddNode`. -/
def Call.isAddNode : Call → Bool
  | .AddNode _ => true
  | _ => false

/-- The call is an `AddPod`. -/
def Call.isAddPod : Call → Bool
  | .AddPod _ _ => true
  | _ => false

/-- The calls the initialisation makes for a pod list: one `AddPod` for each
pod before the first one that names no node. -/
def podCalls (pods : List Pod) : List Call :=
  (pods.takeWhile (fun p => decide (Placed p))).map (fun p => Call.AddPod p (targetNode p))

/-- The error returned by the most recent add call of a log, nil if the log
has no add call. -/
def lastAddRet (log : List Event) : GoError :=
  match (log.filter (fun e => e.call.isAdd)).getLast? with
  | some e => e.ret
  | none => none

/-- The error returned by the last call of a log, `err` if the log is empty. -/
def lastRetOr (err : GoError) (evs : List Event) : GoError :=
  match evs.getLast? with
  | some e => e.ret
  | none => err

/-- A snapshot that stores nothing and fails every add with the given errors. -/
def failingSnapshot (eNode ePod : GoError) : ClusterSnapshot Unit where
  NodeInfos := fun s => (s, [])
  AddNode := fun s _ => (s, eNode)
  AddNodes := fun s _ => (s, eNode)
  RemoveNode := fun s _ => (s, none)
  AddPod := fun s _ _ => (s, ePod)
  RemovePod := fun s _ _ _ => (s, none)
  AddNodeWithPods := fun s _ _ => (s, eNode)
  IsPVCUsedByPods := fun s _ => (s, false)
  Fork := fun s => s
  Revert := fun s => s
  Commit := fun s => (s, none)
  Clear := fun s => s

/-! ## The snapshot engine

The source file declares the interface only.  The engine behind it (node
store, pod store, volume-claim usage index, layer stack) is modelled here from
the specification: a base view and a stack of layers, each layer an ordered
record of the mutations made since its fork. -/

/-- Modelled from the spec: the expected, data-dependent failures named by the
component design of the stores, whose implementation is not in the source file. -/
inductive Failure where
  | NodeNotFound
  | NodeAlreadyExists
  | PodNotFound
  | PodAlreadyExists
deriving DecidableEq, Repr

/-- Modelled from the spec: a caller-contract violation, which is fatal
(`Revert` or `Commit` with no active layer); the layer stack is not in the
source file. -/
inductive Fatal where
  | noActiveLayer
deriving DecidableEq, Repr

/-- Modelled from the spec: the identity of a pod, (namespace, name), as used
by the volume-claim usage entries; the index is not in the source file. -/
structure PodKey where
  Namespace : String
  Name : String
deriving DecidableEq, Repr

/-- Modelled from the spec: the identity of a pod, read off the pod; the pod
store is not in the source file. -/
def Pod.key (p : Pod) : PodKey := ⟨p.Namespace, p.Name⟩

/-- Modelled from the spec: the content of a view of the cluster, which is the
nodes with the pods bound to each and the sum of their requests, and the
volume-claim usage entries (claim key, referencing pod); the stores are not in
the source file. -/
structure View where
  nodeInfos : List NodeInfo
  pvcUsage : List (String × PodKey)
deriving DecidableEq, Repr

/-- Modelled from the spec: one recorded mutation of a layer (node add, node
remove, pod add, pod remove, each with its index side effects when applied);
the layer stack is not in the source file. -/
inductive Delta where
  | nodeAdd (node : Node)
  | nodeRemove (name : String)
  | podAdd (pod : Pod) (nodeName : String)
  | podRemove (ns : String) (name : String) (nodeName : String)
deriving DecidableEq, Repr

/-- Modelled from the spec: the empty snapshot content; the stores are not in
the source file. -/
def View.empty : View := ⟨[], []⟩

/-- Modelled from the spec: a node of this name is in the view; the node store
is not in the source file. -/
def View.hasNode (v : View) (name : String) : Bool :=
  v.nodeInfos.any (fun ni => ni.node.Name == name)

/-- Modelled from the spec: the pods bound to the node of this name; the pod
store is not in the source file. -/
def View.podsOn (v : View) (nodeName : String) : List Pod :=
  ((v.nodeInfos.filter (fun ni => ni.node.Name == nodeName)).map NodeInfo.pods).flatten

/-- Modelled from the spec: a pod of this identity is in the view, on any
node; the pod store is not in the source file. -/
def View.hasPod (v : View) (ns name : String) : Bool :=
  v.nodeInfos.any (fun ni => ni.pods.any (fun p => p.key == ⟨ns, name⟩))

/-- Modelled from the spec: a pod of this identity is bound to the node of
this name; the pod store is not in the source file. -/
def View.hasPodOn (v : View) (ns name nodeName : String) : Bool :=
  (v.podsOn nodeName).any (fun p => p.key == ⟨ns, name⟩)

/-- Modelled from the spec: the sum of requests the lister reports for the
node of this name; the lister adapter is not in the source file. -/
def View.requestedOn (v : View) (nodeName : String) : Option Nat :=
  (v.nodeInfos.find? (fun ni => ni.node.Name == nodeName)).map NodeInfo.requested

/-- Modelled from the spec: the effect of one recorded mutation on a view.
Adding a node starts an empty aggregate; adding a pod binds it, increments the
node's aggregate and adds a usage entry for every claim it references;
removing a pod unbinds it, decrements the aggregate and removes its usage
entries; removing a node drops it.  The stores are not in the source file. -/
def Delta.apply (v : View) : Delta → View
  | .nodeAdd node => { v with nodeInfos := v.nodeInfos ++ [⟨node, [], 0⟩] }
  | .nodeRemove name =>
    { v with nodeInfos := v.nodeInfos.filter (fun ni => ni.node.Name != name) }
  | .podAdd pod nodeName =>
    { nodeInfos := v.nodeInfos.map (fun ni =>
        if ni.node.Name == nodeName then
          ⟨ni.node, ni.pods ++ [pod], ni.requested + pod.Request⟩
        else ni)
      pvcUsage := v.pvcUsage ++ pod.Spec.VolumeClaimRefs.map (fun k => (k, pod.key)) }
  | .podRemove ns name nodeName =>
    { nodeInfos := v.nodeInfos.map (fun ni =>
        if ni.node.Name == nodeName then
          ⟨ni.node, ni.pods.filter (fun p => p.key != ⟨ns, name⟩),
            ni.requested -
              ((ni.pods.filter (fun p => p.key == ⟨ns, name⟩)).map Pod.Request).sum⟩
        else ni)
      pvcUsage := v.pvcUsage.filter (fun e => e.2 != ⟨ns, name⟩) }

/-- Modelled from the spec: the effect of a layer, its mutations applied
oldest first; the layer stack is not in the source file. -/
def applyLayer (v : View) (layer : List Delta) : View := layer.foldl Delta.apply v

/-- Modelled from the spec: the engine state, a base and a stack of active
layers, newest first; the layer stack is not in the source file. -/
structure SnapshotState where
  base : View
  layers : List (List Delta)
deriving DecidableEq, Repr

/-- Modelled from the spec: the merged view, the base overlaid by every active
layer from the oldest to the newest, so that the newest layer wins; the layer
stack is not in the source file. -/
def SnapshotState.merged (s : SnapshotState) : View :=
  s.layers.foldr (fun layer v => applyLayer v layer) s.base

/-- Modelled from the spec: record mutations in the current layer, or in the
base if no layer is active; the layer stack is not in the source file. -/
def SnapshotState.record (s : SnapshotState) (ds : List Delta) : SnapshotState :=
  match s.layers with
  | [] => { s with base := applyLayer s.base ds }
  | top :: rest => { s with layers := (top ++ ds) :: rest }

namespace engine

/-- Modelled from the spec: `AddNode` of the node store, absent from the source
file.  Fails with NodeAlreadyExists if the name is in the merged view, with no
effect; otherwise records the addition. -/
def AddNode (s : SnapshotState) (node : Node) : SnapshotState × Option Failure :=
  if s.merged.hasNode node.Name then (s, some Failure.NodeAlreadyExists)
  else (s.record [Delta.nodeAdd node], none)

/-- Modelled from the spec: `RemoveNode` of the node store, absent from the
source file.  Fails with NodeNotFound if absent; otherwise removes every pod
bound to the node, then the node, as one set of deltas in the current layer. -/
def RemoveNode (s : SnapshotState) (nodeName : String) : SnapshotState × Option Failure :=
  if s.merged.hasNode nodeName then
    (s.record ((s.merged.podsOn nodeName).map
        (fun p => Delta.podRemove p.Namespace p.Name nodeName) ++ [Delta.nodeRemove nodeName]),
      none)
  else (s, some Failure.NodeNotFound)

/-- Modelled from the spec: `AddPod` of the pod store, absent from the source
file.  Fails with NodeNotFound if the node is not in the merged view, with
PodAlreadyExists if the pod identity is; otherwise records the binding. -/
def AddPod (s : SnapshotState) (pod : Pod) (nodeName : String) :
    SnapshotState × Option Failure :=
  if !s.merged.hasNode nodeName then (s, some Failure.NodeNotFound)
  else if s.merged.hasPod pod.Namespace pod.Name then (s, some Failure.PodAlreadyExists)
  else (s.record [Delta.podAdd pod nodeName], none)

/-- Modelled from the spec: `RemovePod` of the pod store, absent from the
source file.  Fails with PodNotFound if the pod is not bound to the node;
otherwise records the removal. -/
def RemovePod (s : SnapshotState) (ns podName nodeName : String) :
    SnapshotState × Option Failure :=
  if s.merged.hasPodOn ns podName nodeName then
    (s.record [Delta.podRemove ns podName nodeName], none)
  else (s, some Failure.PodNotFound)

/-- Modelled from the spec: `Fork` of the layer stack, absent from the source
file.  Pushes a new, empty layer; always succeeds. -/
def Fork (s : SnapshotState) : SnapshotState := { s with layers := [] :: s.layers }

/-- Modelled from the spec: `Revert` of the layer stack, absent from the source
file.  Fatal if no layer is active; otherwise pops the top layer and discards
its deltas. -/
def Revert (s : SnapshotState) : Except Fatal SnapshotState :=
  match s.layers with
  | [] => Except.error Fatal.noActiveLayer
  | _ :: rest => Except.ok { s with layers := rest }

/-- Modelled from the spec: `Commit` of the layer stack, absent from the source
file.  Fatal if no layer is active; otherwise folds the top layer into the
layer beneath it, or into the base if it was the outermost layer. -/
def Commit (s : SnapshotState) : Except Fatal SnapshotState :=
  match s.layers with
  | [] => Except.error Fatal.noActiveLayer
  | [top] => Except.ok { base := applyLayer s.base top, layers := [] }
  | top :: below :: rest => Except.ok { s with layers := (below ++ top) :: rest }

/-- Modelled from the spec: `Clear` of the layer stack, absent from the source
file.  Discards the layer stack and the base. -/
def Clear (_s : SnapshotState) : SnapshotState := ⟨View.empty, []⟩

/-- Modelled from the spec: `IsPVCUsedByPods` of the volume-claim usage index,
absent from the source file.  True iff some pod of the merged view references
the claim key. -/
def IsPVCUsedByPods (s : SnapshotState) (key : String) : Bool :=
  s.merged.pvcUsage.any (fun e => e.1 == key)

/-- Modelled from the spec: the body of `AddNodes`, absent from the source
file.  Adds the nodes one by one, stopping at the first failure. -/
def addNodesIn (s : SnapshotState) : List Node → SnapshotState × Option Failure
  | [] => (s, none)
  | node :: rest =>
    match (AddNode s node).2 with
    | none => addNodesIn (AddNode s node).1 rest
    | some f => ((AddNode s node).1, some f)

/-- Modelled from the spec: the body of `AddNodeWithPods`, absent from the
source file.  Adds the pods one by one to the named node, stopping at the
first failure. -/
def addPodsIn (s : SnapshotState) (nodeName : String) :
    List Pod → SnapshotState × Option Failure
  | [] => (s, none)
  | pod :: rest =>
    match (AddPod s pod nodeName).2 with
    | none => addPodsIn (AddPod s pod nodeName).1 nodeName rest
    | some f => ((AddPod s pod nodeName).1, some f)

/-- Modelled from the spec: the end of a bulk operation, absent from the
source file.  The internal ephemeral layer is committed on full success and
discarded on any failure. -/
def closeEphemeral (r : SnapshotState × Option Failure) :
    Except Fatal (SnapshotState × Option Failure) :=
  match r.2 with
  | none => (Commit r.1).map (fun s => (s, none))
  | some f => (Revert r.1).map (fun s => (s, some f))

/-- Modelled from the spec: `AddNodes` of the node store, absent from the
source file.  All-or-nothing through an internal ephemeral layer. -/
def AddNodes (s : SnapshotState) (nodes : List Node) :
    Except Fatal (SnapshotState × Option Failure) :=
  closeEphemeral (addNodesIn (Fork s) nodes)

/-- Modelled from the spec: `AddNodeWithPods` of the pod store, absent from the
source file.  Adds the node, then each pod bound to it; any failure rolls the
whole operation back, through an internal ephemeral layer. -/
def AddNodeWithPods (s : SnapshotState) (node : Node) (pods : List Pod) :
    Except Fatal (SnapshotState × Option Failure) :=
  closeEphemeral
    (match (AddNode (Fork s) node).2 with
      | none => addPodsIn (AddNode (Fork s) node).1 node.Name pods
      | some f => ((AddNode (Fork s) node).1, some f))

end engine

/-- Modelled from the spec: the mutations of the round-trip property, one
constructor for each mutating method of the stores, which are absent from the
source file. -/
inductive Mutation where
  | AddNode (node : Node)
  | AddNodes (nodes : List Node)
  | RemoveNode (nodeName : String)
  | AddPod (pod : Pod) (nodeName : String)
  | RemovePod (ns : String) (podName : String) (nodeName : String)
  | AddNodeWithPods (node : Node) (pods : List Pod)
deriving DecidableEq, Repr

/-- Modelled from the spec: perform one mutation on the engine, whose methods
are absent from the source file. -/
def Mutation.apply (s : SnapshotState) : Mutation → Except Fatal (SnapshotState × Option Failure)
  | .AddNode node => Except.ok (engine.AddNode s node)
  | .AddNodes nodes => engine.AddNodes s nodes
  | .RemoveNode nodeName => Except.ok (engine.RemoveNode s nodeName)
  | .AddPod pod nodeName => Except.ok (engine.AddPod s pod nodeName)
  | .RemovePod ns podName nodeName => Except.ok (engine.RemovePod s ns podName nodeName)
  | .AddNodeWithPods node pods => engine.AddNodeWithPods s node pods

/-- Modelled from the spec: `apply(M)` of the round-trip property, on the
engine absent from the source file.  The mutations are performed in order; an
expected failure of one mutation is returned to the caller and the sequence
goes on, a fatal one ends it. -/
def applyMutations (s : SnapshotState) : List Mutation → Except Fatal SnapshotState
  | [] => Except.ok s
  | m :: rest =>
    match m.apply s with
    | Except.error e => Except.error e
    | Except.ok r => applyMutations r.1 rest

/-- The engine below the top layer is the same in both states, and both have
an active layer. -/
def SameBelow (s t : SnapshotState) : Prop :=
  t.base = s.base ∧ t.layers.tail = s.layers.tail ∧ s.layers ≠ [] ∧ t.layers ≠ []

/-! ## Sample inputs -/

/-- Two nodes. -/
def sampleNodes : List Node := [⟨"n1", 4, 4⟩, ⟨"n2", 8, 8⟩]

/-- A pod bound to `n1`. -/
def boundPod : Pod := ⟨"default", "p1", 1, ⟨"n1", []⟩, ⟨""⟩⟩

/-- A pod not bound, nominated to `n2`. -/
def nominatedPod : Pod := ⟨"default", "p2", 2, ⟨"", ["ns/pvc1"]⟩, ⟨"n2"⟩⟩

/-- A pod bound to `n1` and nominated to the different node `n2`. -/
def boundAndNominatedPod : Pod := ⟨"default", "p3", 1, ⟨"n1", []⟩, ⟨"n2"⟩⟩

/-- A pod bound to `n2` and nominated to the same node `n2`. -/
def sameNamePod : Pod := ⟨"default", "p5", 1, ⟨"n2", []⟩, ⟨"n2"⟩⟩

/-- A pod with neither a binding nor a nomination. -/
def unplacedPod : Pod := ⟨"default", "p4", 1, ⟨"", []⟩, ⟨""⟩⟩

/-- The empty, unforked engine state. -/
def emptyState : SnapshotState := ⟨View.empty, []⟩

/-- The node `n1` with 4 CPU allocatable. -/
def nodeN1 : Node := ⟨"n1", 4, 4⟩

/-- The pod `default/p1` requesting 1 CPU and referencing the claim `ns/pvc1`. -/
def podP1 : Pod := ⟨"default", "p1", 1, ⟨"n1", ["ns/pvc1"]⟩, ⟨""⟩⟩

/-- The pod `default/p2` requesting 2 CPU. -/
def podP2 : Pod := ⟨"default", "p2", 2, ⟨"n1", []⟩, ⟨""⟩⟩

/-- The engine holding `n1` with `default/p1` bound to it, no layer active. -/
def stateN1P1 : SnapshotState :=
  (engine.AddPod (engine.AddNode emptyState nodeN1).1 podP1 "n1").1

/-! ## Lemmas on the two loops -/

section loops

variable {σ : Type} (impl : ClusterSnapshot σ)

theorem lastRetOr_nil (err : GoError) : lastRetOr err [] = err := rfl

theorem lastRetOr_cons (err : GoError) (ev : Event) (evs : List Event) :
    lastRetOr err (ev :: evs) = lastRetOr ev.ret evs := by
  cases evs with
  | nil => rfl
  | cons a l =>
    cases h : (a :: l).getLast? with
    | none => simp at h
    | some e => simp [lastRetOr, List.getLast?_cons_cons, h]

theorem lastRetOr_append_ne_nil (err : GoError) (xs ys : List Event) (h : ys ≠ []) :
    lastRetOr err (xs ++ ys) = lastRetOr none ys := by
  induction xs generalizing err with
  | nil =>
    cases ys with
    | nil => exact absurd rfl h
    | cons a l => simp [lastRetOr_cons]
  | cons x xs ih => rw [List.cons_append, lastRetOr_cons, ih]

theorem replay_cons (s : σ) (c : Call) (cs : List Call) :
    replay impl s (c :: cs) = replay impl (Call.run impl s c) cs := rfl

theorem replay_append (s : σ) (xs ys : List Call) :
    replay impl s (xs ++ ys) = replay impl (replay impl s xs) ys := by
  simp [replay, List.foldl_append]

/-- The node loop on a recording snapshot: what it appends to the log, the
state it reaches and the value it leaves in `err`. -/
theorem addNodesLoop_recording (nodes : List Node) (st : σ × List Event) (err : GoError) :
    ∃ evs : List Event,
      (addNodesLoop (recording impl) nodes st err).1.2 = st.2 ++ evs ∧
      callsOf evs = nodes.map Call.AddNode ∧
      (addNodesLoop (recording impl) nodes st err).1.1 = replay impl st.1 (callsOf evs) ∧
      (addNodesLoop (recording impl) nodes st err).2 = lastRetOr err evs := by
  induction nodes generalizing st err with
  | nil => exact ⟨[], by simp [addNodesLoop], rfl, rfl, rfl⟩
  | cons node rest ih =>
    obtain ⟨evs, h1, h2, h3, h4⟩ :=
      ih ((recording impl).AddNode st node).1 ((recording impl).AddNode st node).2
    refine ⟨⟨Call.AddNode node, (impl.AddNode st.1 node).2⟩ :: evs, ?_, ?_, ?_, ?_⟩
    · simp only [addNodesLoop]
      rw [h1]
      simp [recording]
    · simp only [callsOf, List.map_cons] at h2 ⊢
      rw [h2]
    · simp only [addNodesLoop]
      rw [h3]
      simp [recording, callsOf, replay, Call.run]
    · simp only [addNodesLoop]
      rw [h4, lastRetOr_cons]
      simp [recording]

/-- The pod loop on a recording snapshot: what it appends to the log, the
state it reaches, when it panics and with which value. -/
theorem addPodsLoop_recording (pods : List Pod) (st : σ × List Event) (err : GoError) :
    ∃ evs : List Event,
      (addPodsLoop (recording impl) pods st err).state.2 = st.2 ++ evs ∧
      callsOf evs = podCalls pods ∧
      (addPodsLoop (recording impl) pods st err).state.1 = replay impl st.1 (callsOf evs) ∧
      (∀ v, (addPodsLoop (recording impl) pods st err).panicValue = some v →
        v = lastRetOr err evs) ∧
      (addPodsLoop (recording impl) pods st err).isPanic
        = !(pods.all (fun p => decide (Placed p))) := by
  induction pods generalizing st err with
  | nil => exact ⟨[], by simp [addPodsLoop, Outcome.state], by simp [callsOf, podCalls], rfl,
      by simp [addPodsLoop, Outcome.panicValue], rfl⟩
  | cons pod rest ih =>
    by_cases hb : pod.Spec.NodeName ≠ ""
    · obtain ⟨evs, h1, h2, h3, h4, h5⟩ :=
        ih ((recording impl).AddPod st pod pod.Spec.NodeName).1
          ((recording impl).AddPod st pod pod.Spec.NodeName).2
      have hp : Placed pod := Or.inl hb
      have ht : targetNode pod = pod.Spec.NodeName := by simp [targetNode, hb]
      refine ⟨⟨Call.AddPod pod pod.Spec.NodeName,
        (impl.AddPod st.1 pod pod.Spec.NodeName).2⟩ :: evs, ?_, ?_, ?_, ?_, ?_⟩
      · simp only [addPodsLoop, if_pos hb]
        rw [h1]
        simp [recording]
      · simp only [callsOf, List.map_cons] at h2 ⊢
        rw [h2]
        simp [podCalls, List.takeWhile_cons, hp, ht]
      · simp only [addPodsLoop, if_pos hb]
        rw [h3]
        simp [recording, callsOf, replay, Call.run]
      · intro v hv
        simp only [addPodsLoop, if_pos hb] at hv
        rw [lastRetOr_cons]
        simpa [recording] using h4 v hv
      · simp only [addPodsLoop, if_pos hb]
        rw [h5]
        simp [hp]
    · by_cases hn : pod.Status.NominatedNodeName ≠ ""
      · obtain ⟨evs, h1, h2, h3, h4, h5⟩ :=
          ih ((recording impl).AddPod st pod pod.Status.NominatedNodeName).1
            ((recording impl).AddPod st pod pod.Status.NominatedNodeName).2
        have hp : Placed pod := Or.inr hn
        have ht : targetNode pod = pod.Status.NominatedNodeName := by simp [targetNode, hb]
        refine ⟨⟨Call.AddPod pod pod.Status.NominatedNodeName,
          (impl.AddPod st.1 pod pod.Status.NominatedNodeName).2⟩ :: evs, ?_, ?_, ?_, ?_, ?_⟩
        · simp only [addPodsLoop, if_neg hb, if_pos hn]
          rw [h1]
          simp [recording]
        · simp only [callsOf, List.map_cons] at h2 ⊢
          rw [h2]
          simp [podCalls, List.takeWhile_cons, hp, ht]
        · simp only [addPodsLoop, if_neg hb, if_pos hn]
          rw [h3]
          simp [recording, callsOf, replay, Call.run]
        · intro v hv
          simp only [addPodsLoop, if_neg hb, if_pos hn] at hv
          rw [lastRetOr_cons]
          simpa [recording] using h4 v hv
        · simp only [addPodsLoop, if_neg hb, if_pos hn]
          rw [h5]
          simp [hp]
      · have hp : ¬ Placed pod := fun h => h.elim hb hn
        refine ⟨[], ?_, ?_, ?_, ?_, ?_⟩
        · simp [addPodsLoop, if_neg hb, if_neg hn, Outcome.state]
        · simp [callsOf, podCalls, List.takeWhile_cons, hp]
        · simp [addPodsLoop, if_neg hb, if_neg hn, Outcome.state, callsOf, replay]
        · intro v hv
          simp only [addPodsLoop, if_neg hb, if_neg hn, Outcome.panicValue] at hv
          simpa [lastRetOr_nil] using (Option.some.inj hv).symm
        · simp [addPodsLoop, if_neg hb, if_neg hn, Outcome.isPanic, hp]

theorem lastRetOr_append (err : GoError) (xs ys : List Event) :
    lastRetOr err (xs ++ ys) = lastRetOr (lastRetOr err xs) ys := by
  induction xs generalizing err with
  | nil => rfl
  | cons x xs ih => rw [List.cons_append, lastRetOr_cons, lastRetOr_cons, ih]

/-- The whole routine on a recording snapshot started with an empty log. -/
theorem init_recording (s : σ) (nodes : List Node) (pods : List Pod) :
    ∃ evsN evsP : List Event,
      (InitializeClusterSnapshotOrDie (recording impl) (s, []) nodes pods).state.2
        = ⟨Call.Clear, none⟩ :: (evsN ++ evsP) ∧
      callsOf evsN = nodes.map Call.AddNode ∧
      callsOf evsP = podCalls pods ∧
      (InitializeClusterSnapshotOrDie (recording impl) (s, []) nodes pods).state.1
        = replay impl s (Call.Clear :: (callsOf evsN ++ callsOf evsP)) ∧
      (∀ v, (InitializeClusterSnapshotOrDie (recording impl) (s, []) nodes pods).panicValue
        = some v → v = lastRetOr none (evsN ++ evsP)) ∧
      (InitializeClusterSnapshotOrDie (recording impl) (s, []) nodes pods).isPanic
        = !(pods.all (fun p => decide (Placed p))) := by
  obtain ⟨evsN, n1, n2, n3, n4⟩ :=
    addNodesLoop_recording impl nodes ((recording impl).Clear (s, [])) none
  obtain ⟨evsP, p1, p2, p3, p4, p5⟩ :=
    addPodsLoop_recording impl pods
      (addNodesLoop (recording impl) nodes ((recording impl).Clear (s, [])) none).1
      (addNodesLoop (recording impl) nodes ((recording impl).Clear (s, [])) none).2
  refine ⟨evsN, evsP, ?_, n2, p2, ?_, ?_, ?_⟩
  · simp only [InitializeClusterSnapshotOrDie]
    rw [p1, n1]
    simp [recording]
  · simp only [InitializeClusterSnapshotOrDie]
    rw [p3, n3, replay_cons, replay_append]
    simp [recording, Call.run]
  · intro v hv
    simp only [InitializeClusterSnapshotOrDie] at hv
    rw [lastRetOr_append, ← n4]
    exact p4 v hv
  · simp only [InitializeClusterSnapshotOrDie]
    exact p5

/-- The calls the routine issues, for every input. -/
theorem init_calls (s : σ) (nodes : List Node) (pods : List Pod) :
    callsOf (InitializeClusterSnapshotOrDie (recording impl) (s, []) nodes pods).state.2
      = Call.Clear :: (nodes.map Call.AddNode ++ podCalls pods) := by
  obtain ⟨evsN, evsP, h1, h2, h3, _⟩ := init_recording impl s nodes pods
  rw [h1]
  simp only [callsOf, List.map_cons, List.map_append] at h2 h3 ⊢
  rw [h2, h3]

theorem addNodesLoop_fst (nodes : List Node) (st : σ × List Event) (err : GoError) :
    ((addNodesLoop (recording impl) nodes st err).1.1,
      (addNodesLoop (recording impl) nodes st err).2) = addNodesLoop impl nodes st.1 err := by
  induction nodes generalizing st err with
  | nil => rfl
  | cons node rest ih =>
    simp only [addNodesLoop]
    rw [ih]
    rfl

theorem addPodsLoop_fst (pods : List Pod) (st : σ × List Event) (err : GoError) :
    (addPodsLoop (recording impl) pods st err).map Prod.fst = addPodsLoop impl pods st.1 err := by
  induction pods generalizing st err with
  | nil => rfl
  | cons pod rest ih =>
    by_cases hb : pod.Spec.NodeName ≠ ""
    · simp only [addPodsLoop, if_pos hb]
      rw [ih]
      rfl
    · by_cases hn : pod.Status.NominatedNodeName ≠ ""
      · simp only [addPodsLoop, if_neg hb, if_pos hn]
        rw [ih]
        rfl
      · simp only [addPodsLoop, if_neg hb, if_neg hn]
        rfl

/-- Recording does not change what the routine does to the snapshot. -/
theorem init_fst (s : σ) (log : List Event) (nodes : List Node) (pods : List Pod) :
    (InitializeClusterSnapshotOrDie (recording impl) (s, log) nodes pods).map Prod.fst
      = InitializeClusterSnapshotOrDie impl s nodes pods := by
  have h := addNodesLoop_fst impl nodes ((recording impl).Clear (s, log)) none
  have h1 := congrArg Prod.fst h
  have h2 := congrArg Prod.snd h
  simp only at h1 h2
  simp only [InitializeClusterSnapshotOrDie]
  rw [addPodsLoop_fst, h1, h2]
  rfl

theorem podCalls_of_placed (pods : List Pod) (h : ∀ p ∈ pods, Placed p) :
    podCalls pods = pods.map (fun p => Call.AddPod p (targetNode p)) := by
  unfold podCalls
  rw [List.takeWhile_eq_self_iff.mpr]
  intro p hp
  simpa using h p hp

theorem podCalls_split (pre post : List Pod) (bad : Pod) (hpre : ∀ p ∈ pre, Placed p)
    (hbad : ¬ Placed bad) :
    podCalls (pre ++ bad :: post) = pre.map (fun p => Call.AddPod p (targetNode p)) := by
  unfold podCalls
  induction pre with
  | nil => simp [List.takeWhile_cons, hbad]
  | cons a l ih =>
    have ha : Placed a := hpre a (List.mem_cons_self a l)
    have hl : ∀ p ∈ l, Placed p := fun p hp => hpre p (List.mem_cons_of_mem a hp)
    simp only [List.cons_append, List.takeWhile_cons, ha, decide_True, if_true, List.map_cons]
    rw [ih hl]

theorem zipWith_addPod (pods : List Pod) :
    List.zipWith Call.AddPod pods (pods.map targetNode)
      = pods.map (fun p => Call.AddPod p (targetNode p)) := by
  induction pods with
  | nil => rfl
  | cons a l ih => simp [ih]

theorem mem_podCalls (pods : List Pod) (p : Pod) (n : String)
    (h : Call.AddPod p n ∈ podCalls pods) : p ∈ pods ∧ Placed p ∧ n = targetNode p := by
  unfold podCalls at h
  rw [List.mem_map] at h
  obtain ⟨q, hq, he⟩ := h
  have hq1 : q ∈ pods := (List.takeWhile_sublist _).subset hq
  have hq2 : Placed q := by simpa using List.mem_takeWhile_imp hq
  injection he with e1 e2
  subst e1
  exact ⟨hq1, hq2, e2.symm⟩

theorem isPanic_map {τ : Type} (f : σ → τ) (o : Outcome σ) :
    (o.map f).isPanic = o.isPanic := by
  cases o <;> rfl

/-- The routine panics exactly when some pod names no node. -/
theorem init_isPanic (s : σ) (nodes : List Node) (pods : List Pod) :
    (InitializeClusterSnapshotOrDie impl s nodes pods).isPanic
      = !(pods.all (fun p => decide (Placed p))) := by
  obtain ⟨_, _, _, _, _, _, _, h⟩ := init_recording impl s nodes pods
  rw [← init_fst impl s [] nodes pods, isPanic_map]
  exact h

theorem callsOf_eq_nil (evs : List Event) (h : callsOf evs = []) : evs = [] := by
  simpa [callsOf] using h

theorem getLast_of_callsOf (evs : List Event) (cs : List Call) (c : Call)
    (h : callsOf evs = cs ++ [c]) : ∃ e, evs.getLast? = some e ∧ e.call = c := by
  have h1 : (callsOf evs).getLast? = some c := by rw [h]; simp
  unfold callsOf at h1
  rw [List.getLast?_map] at h1
  cases hl : evs.getLast? with
  | none => rw [hl] at h1; simp at h1
  | some e =>
    rw [hl] at h1
    exact ⟨e, rfl, by simpa using h1⟩

theorem filter_isAdd_of_calls (evs : List Event)
    (h : ∀ c ∈ callsOf evs, c.isAdd = true) :
    evs.filter (fun e => e.call.isAdd) = evs := by
  rw [List.filter_eq_self]
  intro e he
  exact h e.call (List.mem_map_of_mem Event.call he)

theorem lastAddRet_clear_cons (evs : List Event)
    (h : ∀ c ∈ callsOf evs, c.isAdd = true) :
    lastAddRet (⟨Call.Clear, none⟩ :: evs) = lastRetOr none evs := by
  unfold lastAddRet lastRetOr
  rw [List.filter_cons_of_neg (by simp [Call.isAdd]), filter_isAdd_of_calls evs h]

theorem isAdd_of_mem_adds (nodes : List Node) (pods : List Pod) (c : Call)
    (h : c ∈ nodes.map Call.AddNode ++ pods.map (fun p => Call.AddPod p (targetNode p))) :
    c.isAdd = true := by
  rcases List.mem_append.mp h with h | h
  · obtain ⟨x, _, hx⟩ := List.mem_map.mp h
    subst hx
    rfl
  · obtain ⟨x, _, hx⟩ := List.mem_map.mp h
    subst hx
    rfl

/-- The routine on an input whose first pod naming no node is `bad`, standing
after the pods `pre`: it panics, and this is the log, the state and the value
at that moment. -/
theorem init_panics (s : σ) (nodes : List Node) (pre post : List Pod) (bad : Pod)
    (hpre : ∀ p ∈ pre, Placed p) (hbad : ¬ Placed bad) :
    ∃ (st : σ × List Event) (evs : List Event),
      InitializeClusterSnapshotOrDie (recording impl) (s, []) nodes (pre ++ bad :: post)
        = Outcome.panicked st (lastRetOr none evs) ∧
      st.2 = ⟨Call.Clear, none⟩ :: evs ∧
      callsOf evs = nodes.map Call.AddNode ++ pre.map (fun p => Call.AddPod p (targetNode p)) ∧
      st.1 = replay impl s (Call.Clear :: callsOf evs) := by
  obtain ⟨evsN, evsP, h1, h2, h3, h4, h5, h6⟩ :=
    init_recording impl s nodes (pre ++ bad :: post)
  rw [podCalls_split pre post bad hpre hbad] at h3
  have hp : (InitializeClusterSnapshotOrDie (recording impl) (s, []) nodes
      (pre ++ bad :: post)).isPanic = true := by
    rw [h6]
    simp [hbad]
  cases hr : InitializeClusterSnapshotOrDie (recording impl) (s, []) nodes (pre ++ bad :: post) with
  | returned s1 => rw [hr] at hp; simp [Outcome.isPanic] at hp
  | panicked st v =>
    rw [hr] at h1 h4 h5
    simp only [Outcome.state] at h1 h4
    have hv : v = lastRetOr none (evsN ++ evsP) := h5 v rfl
    refine ⟨st, evsN ++ evsP, by rw [hv], h1, ?_, ?_⟩
    · simp only [callsOf, List.map_append] at h2 h3 ⊢
      rw [h2, h3]
    · rw [h4]
      simp [callsOf]

end loops

/-! ## The package's error values -/

section roundtrip

theorem sameBelow_refl (s : SnapshotState) (h : s.layers ≠ []) : SameBelow s s :=
  ⟨rfl, rfl, h, h⟩

theorem sameBelow_trans {a b c : SnapshotState} (h1 : SameBelow a b) (h2 : SameBelow b c) :
    SameBelow a c :=
  ⟨h2.1.trans h1.1, h2.2.1.trans h1.2.1, h1.2.2.1, h2.2.2.2⟩

theorem sameBelow_record (s : SnapshotState) (ds : List Delta) (h : s.layers ≠ []) :
    SameBelow s (s.record ds) := by
  cases hl : s.layers with
  | nil => exact absurd hl h
  | cons top rest =>
    refine ⟨?_, ?_, h, ?_⟩ <;> simp [SnapshotState.record, hl]

theorem sameBelow_AddNode (s : SnapshotState) (node : Node) (h : s.layers ≠ []) :
    SameBelow s (engine.AddNode s node).1 := by
  unfold engine.AddNode
  split
  · exact sameBelow_refl s h
  · exact sameBelow_record s _ h

theorem sameBelow_RemoveNode (s : SnapshotState) (nodeName : String) (h : s.layers ≠ []) :
    SameBelow s (engine.RemoveNode s nodeName).1 := by
  unfold engine.RemoveNode
  split
  · exact sameBelow_record s _ h
  · exact sameBelow_refl s h

theorem sameBelow_AddPod (s : SnapshotState) (pod : Pod) (nodeName : String)
    (h : s.layers ≠ []) : SameBelow s (engine.AddPod s pod nodeName).1 := by
  unfold engine.AddPod
  split
  · exact sameBelow_refl s h
  · split
    · exact sameBelow_refl s h
    · exact sameBelow_record s _ h

theorem sameBelow_RemovePod (s : SnapshotState) (ns podName nodeName : String)
    (h : s.layers ≠ []) : SameBelow s (engine.RemovePod s ns podName nodeName).1 := by
  unfold engine.RemovePod
  split
  · exact sameBelow_record s _ h
  · exact sameBelow_refl s h

theorem sameBelow_addNodesIn (s : SnapshotState) (nodes : List Node) (h : s.layers ≠ []) :
    SameBelow s (engine.addNodesIn s nodes).1 := by
  induction nodes generalizing s with
  | nil => exact sameBelow_refl s h
  | cons node rest ih =>
    have h1 := sameBelow_AddNode s node h
    unfold engine.addNodesIn
    split
    · exact sameBelow_trans h1 (ih _ h1.2.2.2)
    · exact h1

theorem sameBelow_addPodsIn (s : SnapshotState) (nodeName : String) (pods : List Pod)
    (h : s.layers ≠ []) : SameBelow s (engine.addPodsIn s nodeName pods).1 := by
  induction pods generalizing s with
  | nil => exact sameBelow_refl s h
  | cons pod rest ih =>
    have h1 := sameBelow_AddPod s pod nodeName h
    unfold engine.addPodsIn
    split
    · exact sameBelow_trans h1 (ih _ h1.2.2.2)
    · exact h1

/-- Closing the ephemeral layer pushed on a state with an active layer never
is fatal, and leaves everything below the caller's top layer as it was. -/
theorem closeEphemeral_ok (s : SnapshotState) (r : SnapshotState × Option Failure)
    (h : s.layers ≠ []) (hr : SameBelow (engine.Fork s) r.1) :
    ∃ q, engine.closeEphemeral r = Except.ok q ∧ SameBelow s q.1 := by
  obtain ⟨hb, ht, _, hn⟩ := hr
  simp only [engine.Fork, List.tail_cons] at hb ht
  cases hl : r.1.layers with
  | nil => exact absurd hl hn
  | cons top rest =>
    rw [hl, List.tail_cons] at ht
    cases hs : s.layers with
    | nil => exact absurd hs h
    | cons t below =>
      rw [hs] at ht
      subst ht
      unfold engine.closeEphemeral
      cases r.2 with
      | none =>
        refine ⟨(⟨r.1.base, (t ++ top) :: below⟩, none),
          by simp [engine.Commit, hl, Except.map], ?_⟩
        exact ⟨hb, by simp [hs], by simp [hs], by simp⟩
      | some f =>
        refine ⟨(⟨r.1.base, t :: below⟩, some f),
          by simp [engine.Revert, hl, Except.map], ?_⟩
        exact ⟨hb, by simp [hs], by simp [hs], by simp⟩

theorem fork_layers_ne_nil (s : SnapshotState) : (engine.Fork s).layers ≠ [] := by
  simp [engine.Fork]

theorem mutation_ok (s : SnapshotState) (m : Mutation) (h : s.layers ≠ []) :
    ∃ q, m.apply s = Except.ok q ∧ SameBelow s q.1 := by
  cases m with
  | AddNode node => exact ⟨_, rfl, sameBelow_AddNode s node h⟩
  | AddNodes nodes =>
    exact closeEphemeral_ok s _ h (sameBelow_addNodesIn _ nodes (fork_layers_ne_nil s))
  | RemoveNode nodeName => exact ⟨_, rfl, sameBelow_RemoveNode s nodeName h⟩
  | AddPod pod nodeName => exact ⟨_, rfl, sameBelow_AddPod s pod nodeName h⟩
  | RemovePod ns podName nodeName => exact ⟨_, rfl, sameBelow_RemovePod s ns podName nodeName h⟩
  | AddNodeWithPods node pods =>
    apply closeEphemeral_ok s _ h
    have h1 := sameBelow_AddNode (engine.Fork s) node (fork_layers_ne_nil s)
    split
    · exact sameBelow_trans h1 (sameBelow_addPodsIn _ _ pods h1.2.2.2)
    · exact h1

theorem applyMutations_ok (s : SnapshotState) (M : List Mutation) (h : s.layers ≠ []) :
    ∃ t, applyMutations s M = Except.ok t ∧ SameBelow s t := by
  induction M generalizing s with
  | nil => exact ⟨s, rfl, sameBelow_refl s h⟩
  | cons m rest ih =>
    obtain ⟨q, hq, hs⟩ := mutation_ok s m h
    obtain ⟨t, ht, hs2⟩ := ih q.1 hs.2.2.2
    refine ⟨t, ?_, sameBelow_trans hs hs2⟩
    simp only [applyMutations, hq]
    exact ht

end roundtrip

/-! ## The engine on the scenarios of the specification -/

/-- The concrete scenario: `n1` reports 1 requested after `p1`; inside a fork,
3 after `p2`; after the revert, 1 again and `p2` is absent. -/
theorem engine_concrete_scenario :
    stateN1P1.merged.requestedOn "n1" = some 1 ∧
    (engine.AddPod (engine.Fork stateN1P1) podP2 "n1").1.merged.requestedOn "n1" = some 3 ∧
    (engine.Revert (engine.AddPod (engine.Fork stateN1P1) podP2 "n1").1).map
      (fun s => (s.merged.requestedOn "n1", s.merged.hasPod "default" "p2"))
      = Except.ok (some 1, false) :=
  ⟨by decide, by decide, rfl⟩

/-- The cascade scenario: removing `n1` removes `p1` from the pod store and
from the usage index. -/
theorem engine_cascade_scenario :
    (engine.RemoveNode stateN1P1 "n1").2 = none ∧
    (engine.RemoveNode stateN1P1 "n1").1.merged = View.empty ∧
    engine.IsPVCUsedByPods (engine.RemoveNode stateN1P1 "n1").1 "ns/pvc1" = false := by
  decide

/-- The uniqueness scenario: a second `AddNode` of `n1` fails with
NodeAlreadyExists and changes nothing; `AddPod` to an absent node fails with
NodeNotFound and records nothing. -/
theorem engine_uniqueness_scenario :
    engine.AddNode stateN1P1 nodeN1 = (stateN1P1, some Failure.NodeAlreadyExists) ∧
    engine.AddPod stateN1P1 podP2 "n9" = (stateN1P1, some Failure.NodeNotFound) ∧
    engine.AddPod stateN1P1 podP1 "n1" = (stateN1P1, some Failure.PodAlreadyExists) ∧
    engine.RemovePod stateN1P1 "default" "p2" "n1" = (stateN1P1, some Failure.PodNotFound) := by
  decide

/-- The volume-claim scenario: the claim is used after `AddPod`, unused after
`RemovePod`. -/
theorem engine_volume_claim_scenario :
    engine.IsPVCUsedByPods (engine.AddNode emptyState nodeN1).1 "ns/pvc1" = false ∧
    engine.IsPVCUsedByPods stateN1P1 "ns/pvc1" = true ∧
    engine.IsPVCUsedByPods (engine.RemovePod stateN1P1 "default" "p1" "n1").1 "ns/pvc1"
      = false := by
  decide

/-- The bulk operations are all-or-nothing: a batch with a duplicate leaves no
node of the batch, and a node whose second pod fails leaves neither the node
nor its first pod. -/
theorem engine_bulk_scenario :
    (engine.AddNodes stateN1P1 [⟨"n2", 1, 1⟩, nodeN1]).map (fun r => (r.1.merged, r.2))
      = Except.ok (stateN1P1.merged, some Failure.NodeAlreadyExists) ∧
    (engine.AddNodeWithPods stateN1P1 ⟨"n2", 1, 1⟩ [podP2, podP1]).map
        (fun r => (r.1.merged, r.2))
      = Except.ok (stateN1P1.merged, some Failure.PodAlreadyExists) ∧
    (engine.AddNodes stateN1P1 [⟨"n2", 1, 1⟩]).map (fun r => (r.1.merged.hasNode "n2", r.2))
      = Except.ok (true, none) ∧
    engine.Revert stateN1P1 = Except.error Fatal.noActiveLayer ∧
    engine.Commit stateN1P1 = Except.error Fatal.noActiveLayer :=
  ⟨rfl, rfl, rfl, rfl, rfl⟩

/-- C5. On the engine modelled from the specification: for every state and
every sequence `M` of mutations (`AddNode`, `AddNodes`, `RemoveNode`, `AddPod`,
`RemovePod`, `AddNodeWithPods`, succeeding or failing with an expected
error), `Fork`, then `M`, then `Revert` is never fatal and gives back the
state before the `Fork`: the same merged view (nodes, pods bound to each node,
aggregates), and the same answer of `IsPVCUsedByPods` for every key. -/
theorem C5_fork_revert_round_trip (s : SnapshotState) (M : List Mutation) :
    ∃ t u, applyMutations (engine.Fork s) M = Except.ok t ∧ engine.Revert t = Except.ok u ∧
      u = s ∧ u.merged = s.merged ∧
      (∀ nodeName, u.merged.podsOn nodeName = s.merged.podsOn nodeName) ∧
      (∀ key, engine.IsPVCUsedByPods u key = engine.IsPVCUsedByPods s key) := by
  obtain ⟨t, ht, hb, hl, _, hn⟩ := applyMutations_ok (engine.Fork s) M (fork_layers_ne_nil s)
  simp only [engine.Fork, List.tail_cons] at hb hl
  have hu : engine.Revert t = Except.ok s := by
    cases hc : t.layers with
    | nil => exact absurd hc hn
    | cons top rest =>
      rw [hc, List.tail_cons] at hl
      cases s
      simp_all [engine.Revert]
  exact ⟨t, s, ht, hu, rfl, rfl, fun _ => rfl, fun _ => rfl⟩

/-! ## The initialisation routine: main statements -/

/-- C1. When every pod has a non-empty `Spec.NodeName` or a non-empty
`Status.NominatedNodeName`, the calls issued to the snapshot are exactly: one
`Clear`, then `AddNode nodes[i]` for each `i` in order, then `AddPod pods[i] _`
for each `i` in order.  The shape of the list gives the ordering: `Clear` is
first and every `AddNode` stands before every `AddPod`. -/
theorem C1_call_sequence {σ : Type} (impl : ClusterSnapshot σ) (s : σ)
    (nodes : List Node) (pods : List Pod)
    (h : ∀ p ∈ pods, p.Spec.NodeName ≠ "" ∨ p.Status.NominatedNodeName ≠ "") :
    ∃ names : List String, names.length = pods.length ∧
      callsOf (InitializeClusterSnapshotOrDie (recording impl) (s, []) nodes pods).state.2
        = Call.Clear :: (nodes.map Call.AddNode ++ List.zipWith Call.AddPod pods names) := by
  refine ⟨pods.map targetNode, by simp, ?_⟩
  rw [init_calls, podCalls_of_placed pods h, zipWith_addPod]

/-- C1 at two nodes and two pods, on a snapshot that fails every add. -/
theorem C1_call_sequence_witness :
    (∀ p ∈ [boundPod, nominatedPod], p.Spec.NodeName ≠ "" ∨ p.Status.NominatedNodeName ≠ "") ∧
    ∃ names : List String, names.length = [boundPod, nominatedPod].length ∧
      callsOf (InitializeClusterSnapshotOrDie
          (recording (failingSnapshot ErrNodeNotFound ErrNodeNotFound)) ((), [])
          sampleNodes [boundPod, nominatedPod]).state.2
        = Call.Clear :: (sampleNodes.map Call.AddNode
            ++ List.zipWith Call.AddPod [boundPod, nominatedPod] names) :=
  ⟨by decide, C1_call_sequence _ _ _ _ (by decide)⟩

/-- C2, as stated, fails in its last part: for a pod bound to `n2` and
nominated to the same `n2`, the routine issues `AddPod` with `n2`, which is the
pod's `Status.NominatedNodeName`, although `Spec.NodeName` is not empty. -/
theorem C2_nominated_iff_fails :
    Call.AddPod sameNamePod "n2" ∈
      callsOf (InitializeClusterSnapshotOrDie
        (recording (failingSnapshot none none)) ((), []) sampleNodes [sameNamePod]).state.2 ∧
    ¬ ("n2" = sameNamePod.Status.NominatedNodeName ↔
      (sameNamePod.Spec.NodeName = "" ∧ sameNamePod.Status.NominatedNodeName ≠ "")) := by
  decide

/-- C2, amended.  Every `AddPod p n` call the routine issues is for a pod of
the input list, and its node name `n` is `p.Spec.NodeName` whenever that is
non-empty (whatever `Status.NominatedNodeName` holds); otherwise
`Spec.NodeName` is empty, `Status.NominatedNodeName` is non-empty and `n` is
the nominated name.  So `n` is the nominated name exactly when `Spec.NodeName`
is empty and the nomination is not, or `Spec.NodeName` is non-empty and equal
to the nomination. -/
theorem C2_addPod_node_name {σ : Type} (impl : ClusterSnapshot σ) (s : σ)
    (nodes : List Node) (pods : List Pod) (p : Pod) (n : String)
    (h : Call.AddPod p n ∈
      callsOf (InitializeClusterSnapshotOrDie (recording impl) (s, []) nodes pods).state.2) :
    p ∈ pods ∧
    (p.Spec.NodeName ≠ "" → n = p.Spec.NodeName) ∧
    (p.Spec.NodeName = "" →
      p.Status.NominatedNodeName ≠ "" ∧ n = p.Status.NominatedNodeName) ∧
    (n = p.Status.NominatedNodeName ↔
      ((p.Spec.NodeName = "" ∧ p.Status.NominatedNodeName ≠ "") ∨
        (p.Spec.NodeName ≠ "" ∧ p.Spec.NodeName = p.Status.NominatedNodeName))) := by
  rw [init_calls] at h
  have h2 : Call.AddPod p n ∈ podCalls pods := by
    rcases List.mem_cons.mp h with h | h
    · cases h
    · rcases List.mem_append.mp h with h | h
      · obtain ⟨x, _, hx⟩ := List.mem_map.mp h
        cases hx
      · exact h
  obtain ⟨hmem, hpl, hn⟩ := mem_podCalls pods p n h2
  subst hn
  unfold targetNode
  refine ⟨hmem, ?_, ?_, ?_⟩
  · intro hb
    simp [hb]
  · intro hb
    rcases hpl with hpl | hpl
    · exact absurd hb hpl
    · exact ⟨hpl, by simp [hb]⟩
  · by_cases hb : p.Spec.NodeName = ""
    · rcases hpl with hpl | hpl
      · exact absurd hb hpl
      · simp [hb, hpl]
    · simp [hb]

/-- C2, amended, on the pod list nominated, bound and nominated elsewhere,
bound and nominated to the same node: the three calls name `n2` (the
nomination), `n1` (the binding) and `n2` (both). -/
theorem C2_addPod_node_name_witness :
    (Call.AddPod nominatedPod "n2" ∈
      callsOf (InitializeClusterSnapshotOrDie
        (recording (failingSnapshot none none)) ((), [])
        sampleNodes [nominatedPod, boundAndNominatedPod, sameNamePod]).state.2 ∧
    (nominatedPod ∈ [nominatedPod, boundAndNominatedPod, sameNamePod] ∧
    (nominatedPod.Spec.NodeName ≠ "" → "n2" = nominatedPod.Spec.NodeName) ∧
    (nominatedPod.Spec.NodeName = "" →
      nominatedPod.Status.NominatedNodeName ≠ "" ∧
        "n2" = nominatedPod.Status.NominatedNodeName) ∧
    ("n2" = nominatedPod.Status.NominatedNodeName ↔
      ((nominatedPod.Spec.NodeName = "" ∧ nominatedPod.Status.NominatedNodeName ≠ "") ∨
        (nominatedPod.Spec.NodeName ≠ "" ∧
          nominatedPod.Spec.NodeName = nominatedPod.Status.NominatedNodeName))))) ∧
    (Call.AddPod boundAndNominatedPod "n1" ∈
      callsOf (InitializeClusterSnapshotOrDie
        (recording (failingSnapshot none none)) ((), [])
        sampleNodes [nominatedPod, boundAndNominatedPod, sameNamePod]).state.2 ∧
    (boundAndNominatedPod ∈ [nominatedPod, boundAndNominatedPod, sameNamePod] ∧
    (boundAndNominatedPod.Spec.NodeName ≠ "" → "n1" = boundAndNominatedPod.Spec.NodeName) ∧
    (boundAndNominatedPod.Spec.NodeName = "" →
      boundAndNominatedPod.Status.NominatedNodeName ≠ "" ∧
        "n1" = boundAndNominatedPod.Status.NominatedNodeName) ∧
    ("n1" = boundAndNominatedPod.Status.NominatedNodeName ↔
      ((boundAndNominatedPod.Spec.NodeName = "" ∧
          boundAndNominatedPod.Status.NominatedNodeName ≠ "") ∨
        (boundAndNominatedPod.Spec.NodeName ≠ "" ∧
          boundAndNominatedPod.Spec.NodeName
            = boundAndNominatedPod.Status.NominatedNodeName))))) ∧
    (Call.AddPod sameNamePod "n2" ∈
      callsOf (InitializeClusterSnapshotOrDie
        (recording (failingSnapshot none none)) ((), [])
        sampleNodes [nominatedPod, boundAndNominatedPod, sameNamePod]).state.2 ∧
    (sameNamePod ∈ [nominatedPod, boundAndNominatedPod, sameNamePod] ∧
    (sameNamePod.Spec.NodeName ≠ "" → "n2" = sameNamePod.Spec.NodeName) ∧
    (sameNamePod.Spec.NodeName = "" →
      sameNamePod.Status.NominatedNodeName ≠ "" ∧
        "n2" = sameNamePod.Status.NominatedNodeName) ∧
    ("n2" = sameNamePod.Status.NominatedNodeName ↔
      ((sameNamePod.Spec.NodeName = "" ∧ sameNamePod.Status.NominatedNodeName ≠ "") ∨
        (sameNamePod.Spec.NodeName ≠ "" ∧
          sameNamePod.Spec.NodeName = sameNamePod.Status.NominatedNodeName))))) :=
  ⟨⟨by decide, C2_addPod_node_name (failingSnapshot none none) () sampleNodes
      [nominatedPod, boundAndNominatedPod, sameNamePod] nominatedPod "n2" (by decide)⟩,
    ⟨by decide, C2_addPod_node_name (failingSnapshot none none) () sampleNodes
      [nominatedPod, boundAndNominatedPod, sameNamePod] boundAndNominatedPod "n1" (by decide)⟩,
    ⟨by decide, C2_addPod_node_name (failingSnapshot none none) () sampleNodes
      [nominatedPod, boundAndNominatedPod, sameNamePod] sameNamePod "n2" (by decide)⟩⟩

/-- C3. Let `bad` be the first pod with both `Spec.NodeName` and
`Status.NominatedNodeName` empty, at index `k = pre.length` (the pods `pre`
before it all name a node).  Then the routine panics instead of returning; the
calls issued are `Clear`, the `AddNode` calls and one `AddPod` for each of
the `k` pods before `bad`; no `AddPod` is issued for `bad` with any node name
and the number of `AddPod` calls is `k`, so none is issued for a later pod. -/
theorem C3_panics_at_first_unplaced {σ : Type} (impl : ClusterSnapshot σ) (s : σ)
    (nodes : List Node) (pre post : List Pod) (bad : Pod)
    (hpre : ∀ p ∈ pre, p.Spec.NodeName ≠ "" ∨ p.Status.NominatedNodeName ≠ "")
    (hbad : bad.Spec.NodeName = "" ∧ bad.Status.NominatedNodeName = "") :
    (InitializeClusterSnapshotOrDie impl s nodes (pre ++ bad :: post)).isPanic = true ∧
    (∃ st v, InitializeClusterSnapshotOrDie (recording impl) (s, []) nodes (pre ++ bad :: post)
      = Outcome.panicked st v ∧
      (∃ names : List String, names.length = pre.length ∧
        callsOf st.2
          = Call.Clear :: (nodes.map Call.AddNode ++ List.zipWith Call.AddPod pre names)) ∧
      (∀ n, Call.AddPod bad n ∉ callsOf st.2) ∧
      ((callsOf st.2).filter Call.isAddPod).length = pre.length) := by
  have hb : ¬ Placed bad := fun h => h.elim (fun h => h hbad.1) (fun h => h hbad.2)
  obtain ⟨st, evs, h1, h2, h3, _⟩ := init_panics impl s nodes pre post bad hpre hb
  have hc : callsOf st.2 = Call.Clear ::
      (nodes.map Call.AddNode ++ pre.map (fun p => Call.AddPod p (targetNode p))) := by
    rw [h2]
    simp only [callsOf, List.map_cons] at h3 ⊢
    rw [h3]
  refine ⟨?_, st, _, h1, ⟨pre.map targetNode, by simp, by rw [hc, zipWith_addPod]⟩, ?_, ?_⟩
  · rw [init_isPanic]
    simp [hb]
  · intro n hn
    rw [hc] at hn
    rcases List.mem_cons.mp hn with h | h
    · cases h
    · rcases List.mem_append.mp h with h | h
      · obtain ⟨x, _, hx⟩ := List.mem_map.mp h
        cases hx
      · obtain ⟨x, hx1, hx2⟩ := List.mem_map.mp h
        injection hx2 with e1 e2
        subst e1
        exact hb (hpre x hx1)
  · rw [hc]
    have e1 : (nodes.map Call.AddNode).filter Call.isAddPod = [] := by
      rw [List.filter_eq_nil_iff]
      intro c hcm
      obtain ⟨x, _, hx⟩ := List.mem_map.mp hcm
      subst hx
      simp [Call.isAddPod]
    have e2 : (pre.map (fun p => Call.AddPod p (targetNode p))).filter Call.isAddPod
        = pre.map (fun p => Call.AddPod p (targetNode p)) := by
      rw [List.filter_eq_self]
      intro c hcm
      obtain ⟨x, _, hx⟩ := List.mem_map.mp hcm
      subst hx
      rfl
    rw [List.filter_cons_of_neg (by simp [Call.isAddPod]), List.filter_append, e1, e2]
    simp

/-- C3 at the pod list bound, unplaced, nominated: the panic is at index 1. -/
theorem C3_panics_at_first_unplaced_witness :
    (∀ p ∈ [boundPod], p.Spec.NodeName ≠ "" ∨ p.Status.NominatedNodeName ≠ "") ∧
    (unplacedPod.Spec.NodeName = "" ∧ unplacedPod.Status.NominatedNodeName = "") ∧
    (InitializeClusterSnapshotOrDie (failingSnapshot none none) () sampleNodes
      ([boundPod] ++ unplacedPod :: [nominatedPod])).isPanic = true ∧
    (∃ st v, InitializeClusterSnapshotOrDie (recording (failingSnapshot none none)) ((), [])
        sampleNodes ([boundPod] ++ unplacedPod :: [nominatedPod])
      = Outcome.panicked st v ∧
      (∃ names : List String, names.length = [boundPod].length ∧
        callsOf st.2
          = Call.Clear :: (sampleNodes.map Call.AddNode
              ++ List.zipWith Call.AddPod [boundPod] names)) ∧
      (∀ n, Call.AddPod unplacedPod n ∉ callsOf st.2) ∧
      ((callsOf st.2).filter Call.isAddPod).length = [boundPod].length) :=
  ⟨by decide, by decide,
    C3_panics_at_first_unplaced (failingSnapshot none none) () sampleNodes
      [boundPod] [nominatedPod] unplacedPod (by decide) (by decide)⟩

/-- C6. For fixed `nodes` and `pods`, take any two snapshots, of any state
types and in any states, hence returning any errors from `AddNode` and
`AddPod`: the routine issues the same sequence of calls to both, and it panics
on one exactly when it panics on the other.  The routine has no result, so
a returned outcome carries the snapshot state only. -/
theorem C6_errors_discarded {σ τ : Type} (impl1 : ClusterSnapshot σ) (impl2 : ClusterSnapshot τ)
    (s1 : σ) (s2 : τ) (nodes : List Node) (pods : List Pod) :
    callsOf (InitializeClusterSnapshotOrDie (recording impl1) (s1, []) nodes pods).state.2
      = callsOf (InitializeClusterSnapshotOrDie (recording impl2) (s2, []) nodes pods).state.2 ∧
    (InitializeClusterSnapshotOrDie impl1 s1 nodes pods).isPanic
      = (InitializeClusterSnapshotOrDie impl2 s2 nodes pods).isPanic := by
  refine ⟨?_, ?_⟩
  · rw [init_calls, init_calls]
  · rw [init_isPanic, init_isPanic]

/-- C7. When the routine reaches the first pod `bad` with neither name (after
the pods `pre`), the value passed to `panic` is the error returned by the most
recent add call of the log, nil if there was none.  That call is the `AddPod`
of the previous pod when there is one, otherwise the `AddNode` of the last
node; with no node and no previous pod the value is nil; and the value is nil
whenever that most recent call returned nil, whatever earlier calls returned. -/
theorem C7_stale_panic_value {σ : Type} (impl : ClusterSnapshot σ) (s : σ)
    (nodes : List Node) (pre post : List Pod) (bad : Pod)
    (hpre : ∀ p ∈ pre, p.Spec.NodeName ≠ "" ∨ p.Status.NominatedNodeName ≠ "")
    (hbad : bad.Spec.NodeName = "" ∧ bad.Status.NominatedNodeName = "") :
    ∃ st v, InitializeClusterSnapshotOrDie (recording impl) (s, []) nodes (pre ++ bad :: post)
        = Outcome.panicked st v ∧
      InitializeClusterSnapshotOrDie impl s nodes (pre ++ bad :: post)
        = Outcome.panicked st.1 v ∧
      v = lastAddRet st.2 ∧
      (∀ pre1 q, pre = pre1 ++ [q] →
        ∃ e, st.2.getLast? = some e ∧ e.call = Call.AddPod q (targetNode q) ∧ v = e.ret) ∧
      (pre = [] → ∀ nodes1 m, nodes = nodes1 ++ [m] →
        ∃ e, st.2.getLast? = some e ∧ e.call = Call.AddNode m ∧ v = e.ret) ∧
      (pre = [] → nodes = [] → v = none) := by
  have hb : ¬ Placed bad := fun h => h.elim (fun h => h hbad.1) (fun h => h hbad.2)
  obtain ⟨st, evs, h1, h2, h3, _⟩ := init_panics impl s nodes pre post bad hpre hb
  have hadd : ∀ c ∈ callsOf evs, c.isAdd = true := by
    rw [h3]
    exact isAdd_of_mem_adds nodes pre
  have hlast : ∀ cs c, callsOf evs = cs ++ [c] →
      ∃ e, st.2.getLast? = some e ∧ e.call = c ∧ lastRetOr none evs = e.ret := by
    intro cs c hc
    obtain ⟨e, he1, he2⟩ := getLast_of_callsOf evs cs c hc
    refine ⟨e, ?_, he2, ?_⟩
    · rw [h2]
      cases evs with
      | nil => simp at he1
      | cons a l => rw [List.getLast?_cons_cons]; exact he1
    · simp [lastRetOr, he1]
  refine ⟨st, _, h1, ?_, ?_, ?_, ?_, ?_⟩
  · have hm := init_fst impl s [] nodes (pre ++ bad :: post)
    rw [h1] at hm
    exact hm.symm
  · rw [h2, lastAddRet_clear_cons evs hadd]
  · intro pre1 q hq
    apply hlast (nodes.map Call.AddNode ++ pre1.map (fun p => Call.AddPod p (targetNode p)))
    rw [h3, hq]
    simp
  · intro hp nodes1 m hm
    apply hlast (nodes1.map Call.AddNode)
    rw [h3, hp, hm]
    simp
  · intro hp hn
    rw [hp, hn] at h3
    rw [callsOf_eq_nil evs (by simpa using h3)]
    rfl

/-- C7 on a snapshot whose `AddNode` fails and whose `AddPod` succeeds: with
one pod added before the unplaced one, the panic value is the nil error. -/
theorem C7_stale_panic_value_witness :
    (∀ p ∈ [boundPod], p.Spec.NodeName ≠ "" ∨ p.Status.NominatedNodeName ≠ "") ∧
    (unplacedPod.Spec.NodeName = "" ∧ unplacedPod.Status.NominatedNodeName = "") ∧
    ∃ st v, InitializeClusterSnapshotOrDie (recording (failingSnapshot ErrNodeNotFound none))
          ((), []) sampleNodes ([boundPod] ++ unplacedPod :: [])
        = Outcome.panicked st v ∧
      InitializeClusterSnapshotOrDie (failingSnapshot ErrNodeNotFound none) () sampleNodes
          ([boundPod] ++ unplacedPod :: [])
        = Outcome.panicked st.1 v ∧
      v = lastAddRet st.2 ∧
      (∀ pre1 q, [boundPod] = pre1 ++ [q] →
        ∃ e, st.2.getLast? = some e ∧ e.call = Call.AddPod q (targetNode q) ∧ v = e.ret) ∧
      ([boundPod] = [] → ∀ nodes1 m, sampleNodes = nodes1 ++ [m] →
        ∃ e, st.2.getLast? = some e ∧ e.call = Call.AddNode m ∧ v = e.ret) ∧
      ([boundPod] = [] → sampleNodes = [] → v = none) :=
  ⟨by decide, by decide,
    C7_stale_panic_value (failingSnapshot ErrNodeNotFound none) () sampleNodes
      [boundPod] [] unplacedPod (by decide) (by decide)⟩

/-- C8. On the fatal path, with `bad` the first pod with neither name and
`pre` the pods before it: at the panic the snapshot has received `Clear`,
`AddNode` for every node and `AddPod` for every pod of `pre`, its state is
the one these calls produce, and no `Revert`, second `Clear`, `RemoveNode` or
`RemovePod` has been issued: every call after the `Clear` is an add. -/
theorem C8_not_atomic_on_panic {σ : Type} (impl : ClusterSnapshot σ) (s : σ)
    (nodes : List Node) (pre post : List Pod) (bad : Pod)
    (hpre : ∀ p ∈ pre, p.Spec.NodeName ≠ "" ∨ p.Status.NominatedNodeName ≠ "")
    (hbad : bad.Spec.NodeName = "" ∧ bad.Status.NominatedNodeName = "") :
    ∃ st v, InitializeClusterSnapshotOrDie (recording impl) (s, []) nodes (pre ++ bad :: post)
        = Outcome.panicked st v ∧
      InitializeClusterSnapshotOrDie impl s nodes (pre ++ bad :: post)
        = Outcome.panicked st.1 v ∧
      callsOf st.2 = Call.Clear ::
        (nodes.map Call.AddNode ++ pre.map (fun p => Call.AddPod p (targetNode p))) ∧
      st.1 = replay impl s (callsOf st.2) ∧
      (∀ c ∈ (callsOf st.2).tail, c.isAdd = true) ∧
      Call.Revert ∉ callsOf st.2 ∧ Call.Clear ∉ (callsOf st.2).tail ∧
      (∀ x, Call.RemoveNode x ∉ callsOf st.2) ∧
      (∀ x y z, Call.RemovePod x y z ∉ callsOf st.2) := by
  have hb : ¬ Placed bad := fun h => h.elim (fun h => h hbad.1) (fun h => h hbad.2)
  obtain ⟨st, evs, h1, h2, h3, h4⟩ := init_panics impl s nodes pre post bad hpre hb
  have hc : callsOf st.2 = Call.Clear :: callsOf evs := by
    rw [h2]
    rfl
  have hadd : ∀ c ∈ callsOf evs, c.isAdd = true := by
    rw [h3]
    exact isAdd_of_mem_adds nodes pre
  have hno : ∀ c, c.isAdd = false → c ≠ Call.Clear → c ∉ callsOf st.2 := by
    intro c hf hne hm
    rw [hc] at hm
    rcases List.mem_cons.mp hm with h | h
    · exact hne h
    · rw [hadd c h] at hf
      cases hf
  refine ⟨st, _, h1, ?_, ?_, ?_, ?_, ?_, ?_, ?_, ?_⟩
  · have hm := init_fst impl s [] nodes (pre ++ bad :: post)
    rw [h1] at hm
    exact hm.symm
  · rw [hc, h3]
  · rw [hc]
    exact h4
  · rw [hc]
    exact hadd
  · exact hno _ rfl (by simp)
  · rw [hc]
    intro hm
    have := hadd _ hm
    cases this
  · exact fun x => hno _ rfl (by simp)
  · exact fun x y z => hno _ rfl (by simp)

/-- C8 at the pod list bound, unplaced, nominated. -/
theorem C8_not_atomic_on_panic_witness :
    (∀ p ∈ [boundPod], p.Spec.NodeName ≠ "" ∨ p.Status.NominatedNodeName ≠ "") ∧
    (unplacedPod.Spec.NodeName = "" ∧ unplacedPod.Status.NominatedNodeName = "") ∧
    ∃ st v, InitializeClusterSnapshotOrDie (recording (failingSnapshot none none)) ((), [])
          sampleNodes ([boundPod] ++ unplacedPod :: [nominatedPod])
        = Outcome.panicked st v ∧
      InitializeClusterSnapshotOrDie (failingSnapshot none none) () sampleNodes
          ([boundPod] ++ unplacedPod :: [nominatedPod])
        = Outcome.panicked st.1 v ∧
      callsOf st.2 = Call.Clear ::
        (sampleNodes.map Call.AddNode
          ++ [boundPod].map (fun p => Call.AddPod p (targetNode p))) ∧
      st.1 = replay (failingSnapshot none none) () (callsOf st.2) ∧
      (∀ c ∈ (callsOf st.2).tail, c.isAdd = true) ∧
      Call.Revert ∉ callsOf st.2 ∧ Call.Clear ∉ (callsOf st.2).tail ∧
      (∀ x, Call.RemoveNode x ∉ callsOf st.2) ∧
      (∀ x y z, Call.RemovePod x y z ∉ callsOf st.2) :=
  ⟨by decide, by decide,
    C8_not_atomic_on_panic (failingSnapshot none none) () sampleNodes
      [boundPod] [nominatedPod] unplacedPod (by decide) (by decide)⟩

/-- C9. With the snapshot's methods returning (they are total functions here),
the routine returns normally on every input in which each pod has a non-empty
`Spec.NodeName` or `Status.NominatedNodeName`, whatever errors `AddNode` and
`AddPod` return; so it panics only if some pod has both empty. -/
theorem C9_returns_when_all_placed {σ : Type} (impl : ClusterSnapshot σ) (s : σ)
    (nodes : List Node) (pods : List Pod)
    (h : ∀ p ∈ pods, p.Spec.NodeName ≠ "" ∨ p.Status.NominatedNodeName ≠ "") :
    ∃ s1, InitializeClusterSnapshotOrDie impl s nodes pods = Outcome.returned s1 := by
  have hp := init_isPanic impl s nodes pods
  have hall : pods.all (fun p => decide (Placed p)) = true := by
    rw [List.all_eq_true]
    intro p hm
    simpa using h p hm
  rw [hall] at hp
  cases hr : InitializeClusterSnapshotOrDie impl s nodes pods with
  | returned s1 => exact ⟨s1, rfl⟩
  | panicked s1 v => rw [hr] at hp; simp [Outcome.isPanic] at hp

/-- C9 on a snapshot whose every `AddNode` and `AddPod` returns an error. -/
theorem C9_returns_when_all_placed_witness :
    (∀ p ∈ [boundPod, nominatedPod, boundAndNominatedPod],
      p.Spec.NodeName ≠ "" ∨ p.Status.NominatedNodeName ≠ "") ∧
    ∃ s1, InitializeClusterSnapshotOrDie (failingSnapshot ErrNodeNotFound ErrNodeNotFound) ()
      sampleNodes [boundPod, nominatedPod, boundAndNominatedPod] = Outcome.returned s1 :=
  ⟨by decide,
    C9_returns_when_all_placed (failingSnapshot ErrNodeNotFound ErrNodeNotFound) ()
      sampleNodes [boundPod, nominatedPod, boundAndNominatedPod] (by decide)⟩

/-- C10. For every input the routine calls only `Clear`, `AddNode` and
`AddPod`: `Clear` once, `AddNode` once per node, `AddPod` at most once per
pod; `Fork`, `Revert`, `Commit`, `RemoveNode`, `RemovePod`, `AddNodes` and
`AddNodeWithPods` are never called, so no layer is pushed by the routine. -/
theorem C10_only_clear_and_adds {σ : Type} (impl : ClusterSnapshot σ) (s : σ)
    (nodes : List Node) (pods : List Pod) :
    (∀ c ∈ callsOf (InitializeClusterSnapshotOrDie (recording impl) (s, []) nodes pods).state.2,
      c = Call.Clear ∨ c.isAddNode = true ∨ c.isAddPod = true) ∧
    (callsOf (InitializeClusterSnapshotOrDie (recording impl) (s, []) nodes pods).state.2).count
      Call.Clear = 1 ∧
    ((callsOf (InitializeClusterSnapshotOrDie (recording impl) (s, []) nodes pods).state.2).filter
      Call.isAddNode).length = nodes.length ∧
    ((callsOf (InitializeClusterSnapshotOrDie (recording impl) (s, []) nodes pods).state.2).filter
      Call.isAddPod).length ≤ pods.length ∧
    (∀ c ∈ callsOf (InitializeClusterSnapshotOrDie (recording impl) (s, []) nodes pods).state.2,
      c ≠ Call.Fork ∧ c ≠ Call.Revert ∧ c ≠ Call.Commit ∧ (∀ x, c ≠ Call.RemoveNode x) ∧
      (∀ x y z, c ≠ Call.RemovePod x y z) ∧ (∀ x, c ≠ Call.AddNodes x) ∧
      (∀ x y, c ≠ Call.AddNodeWithPods x y)) := by
  rw [init_calls]
  have hN : ∀ c ∈ nodes.map Call.AddNode, c.isAddNode = true ∧ c.isAddPod = false := by
    intro c hc
    obtain ⟨x, _, hx⟩ := List.mem_map.mp hc
    subst hx
    exact ⟨rfl, rfl⟩
  have hP : ∀ c ∈ podCalls pods, c.isAddPod = true ∧ c.isAddNode = false := by
    intro c hc
    obtain ⟨x, _, hx⟩ := List.mem_map.mp hc
    subst hx
    exact ⟨rfl, rfl⟩
  have hshape : ∀ c ∈ Call.Clear :: (nodes.map Call.AddNode ++ podCalls pods),
      c = Call.Clear ∨ c.isAddNode = true ∨ c.isAddPod = true := by
    intro c hc
    rcases List.mem_cons.mp hc with h | h
    · exact Or.inl h
    · rcases List.mem_append.mp h with h | h
      · exact Or.inr (Or.inl (hN c h).1)
      · exact Or.inr (Or.inr (hP c h).1)
  refine ⟨hshape, ?_, ?_, ?_, ?_⟩
  · rw [List.count_cons_self, List.count_eq_zero_of_not_mem]
    intro hm
    rcases List.mem_append.mp hm with h | h
    · have := (hN _ h).1
      cases this
    · have := (hP _ h).1
      cases this
  · rw [List.filter_cons_of_neg (by simp [Call.isAddNode]), List.filter_append,
      List.filter_eq_self.mpr (fun c hc => (hN c hc).1),
      List.filter_eq_nil_iff.mpr (fun c hc => by simp [(hP c hc).2])]
    simp
  · rw [List.filter_cons_of_neg (by simp [Call.isAddPod]), List.filter_append,
      List.filter_eq_nil_iff.mpr (fun c hc => by simp [(hN c hc).2]),
      List.filter_eq_self.mpr (fun c hc => (hP c hc).1)]
    simp only [List.nil_append, podCalls, List.length_map]
    exact (List.takeWhile_sublist _).length_le
  · intro c hc
    rcases hshape c hc with h | h | h
    · subst h
      simp
    · cases c <;> simp_all [Call.isAddNode]
    · cases c <;> simp_all [Call.isAddPod]

/-- The panic value on three runs with an unplaced pod: the stale error of the
last `AddNode` when no pod precedes; nil when the preceding `AddPod`
succeeded although every `AddNode` had failed; nil when no call precedes. -/
theorem panic_value_examples :
    InitializeClusterSnapshotOrDie (failingSnapshot ErrNodeNotFound none) () sampleNodes
        [unplacedPod, boundPod] = Outcome.panicked () ErrNodeNotFound ∧
    InitializeClusterSnapshotOrDie (failingSnapshot ErrNodeNotFound none) () sampleNodes
        [boundPod, unplacedPod] = Outcome.panicked () none ∧
    InitializeClusterSnapshotOrDie (failingSnapshot ErrNodeNotFound ErrNodeNotFound) () []
        [unplacedPod] = Outcome.panicked () none ∧
    callsOf (InitializeClusterSnapshotOrDie (recording (failingSnapshot ErrNodeNotFound none))
        ((), []) sampleNodes [boundPod, unplacedPod, nominatedPod]).state.2
      = [Call.Clear, Call.AddNode ⟨"n1", 4, 4⟩, Call.AddNode ⟨"n2", 8, 8⟩,
          Call.AddPod boundPod "n1"] :=
  ⟨rfl, rfl, rfl, rfl⟩

end clustersnapshot
